import Mathlib

/-!
A shallow embedding of the vulkanoob crate, a convenience layer over the
vulkano Vulkan binding.  The crate's own logic — device and queue-family
selection, filter composition, instance setup — is translated into pure
Lean functions.  The vulkano entry points that the crate calls (instance
creation, device creation, debug-callback registration, extension and
layer enumeration) are modelled as oracle fields of explicit environment
records, so that every fallible native call is an `Except` value.

Logging is not observable and is modelled as a no-op, with two caveats
taken from the source: the `ensure!` check on `robust_buffer_access`
aborts enumeration with an error, and the `?` operators on `write!` into
a `String` can never fail (the `fmt::Write` impl for `String` is
infallible), so they are dropped.
-/

set_option maxHeartbeats 1000000

namespace Vulkanoob

/-- Type-erased errors of the crate's `Result` alias.  The only error the
crate produces itself is the `ensure!` failure on missing robust buffer
access support; every other error comes out of a vulkano call and is
modelled by an opaque numeric code. -/
inductive VkError where
  | robustBufferAccessRequired : VkError
  | code : Nat → VkError
deriving DecidableEq

/-- Model of vulkano's `Version` struct: a `(major, minor, patch)` triple
of small integers with the derived lexicographic ordering. -/
structure Version where
  major : Nat
  minor : Nat
  patch : Nat
deriving DecidableEq

/-- Lexicographic three-way comparison, as derived by `#[derive(Ord)]` on
the field order `major`, `minor`, `patch`. -/
def Version.cmp (a b : Version) : Ordering :=
  if a.major < b.major then .lt else if b.major < a.major then .gt
  else if a.minor < b.minor then .lt else if b.minor < a.minor then .gt
  else if a.patch < b.patch then .lt else if b.patch < a.patch then .gt
  else .eq

/-- Boolean strict order on versions (`<` of the derived `PartialOrd`). -/
def Version.blt (a b : Version) : Bool :=
  Version.cmp a b == Ordering.lt

/-- Boolean `>=` on versions (`cmp` is `Greater` or `Equal`). -/
def Version.bge (a b : Version) : Bool :=
  !(Version.cmp a b == Ordering.lt)

/-- Specification-side strict lexicographic order on versions. -/
def Version.LtP (a b : Version) : Prop :=
  a.major < b.major ∨ (a.major = b.major ∧
    (a.minor < b.minor ∨ (a.minor = b.minor ∧ a.patch < b.patch)))

/-- Specification-side lexicographic order-or-equal on versions. -/
def Version.LeP (a b : Version) : Prop :=
  Version.LtP a b ∨ a = b

instance (a b : Version) : Decidable (Version.LtP a b) := by
  unfold Version.LtP; infer_instance

instance (a b : Version) : Decidable (Version.LeP a b) := by
  unfold Version.LeP; infer_instance

/-- Model of vulkano's `Features` struct: a fixed record of boolean
feature flags.  The first field, `robust_buffer_access`, is the one the
crate inspects by name; the remaining flags are kept as a list in their
declaration order. -/
structure Features where
  robust_buffer_access : Bool
  other_flags : List Bool
deriving DecidableEq

/-- Model of `Features::superset_of`: every flag set in `other` is also
set in `self` (field by field, `self.f || !other.f`). -/
def Features.superset_of (self other : Features) : Bool :=
  (self.robust_buffer_access || !other.robust_buffer_access) &&
    (self.other_flags.zip other.other_flags).all fun p => p.1 || !p.2

/-- Model of vulkano's `DeviceExtensions` struct: a fixed record of
boolean extension flags, kept as a list in declaration order. -/
abbrev DeviceExtensions := List Bool

/-- Model of `DeviceExtensions::difference`: flags set in `self` but not
in `other` (field by field, `self.f && !other.f`). -/
def DeviceExtensions.difference (self other : DeviceExtensions) : DeviceExtensions :=
  (self.zip other).map fun p => p.1 && !p.2

/-- Equality with `DeviceExtensions::none()`: every flag is unset. -/
def DeviceExtensions.isNone (self : DeviceExtensions) : Bool :=
  self.all fun b => !b

/-- Model of a vulkano `QueueFamily`: the fields the crate reads. -/
structure QueueFamily where
  id : Nat
  queues_count : Nat
  supports_graphics : Bool
  supports_compute : Bool
  supports_transfers : Bool
  supports_sparse_binding : Bool
deriving DecidableEq

/-- Model of a vulkano `PhysicalDevice`: the fields the crate's selection
logic reads.  (The many fields that are only logged are omitted, since
logging is unobservable and infallible.) -/
structure PhysicalDevice where
  index : Nat
  api_version : Version
  supported_features : Features
  supported_extensions : DeviceExtensions
  queue_families : List QueueFamily
deriving DecidableEq

/-- Model of `DeviceExtensions::supported_by_device`. -/
def DeviceExtensions.supported_by_device (dev : PhysicalDevice) : DeviceExtensions :=
  dev.supported_extensions

/-- The crate's `EasyPhysicalDevice` wrapper around a `PhysicalDevice`. -/
structure EasyPhysicalDevice where
  device : PhysicalDevice
deriving DecidableEq

/-- Translation of `EasyPhysicalDevice::new`. -/
def EasyPhysicalDevice.new (device : PhysicalDevice) : EasyPhysicalDevice :=
  { device := device }

/-- Translation of `EasyPhysicalDevice::physical_device`. -/
def EasyPhysicalDevice.physical_device (self : EasyPhysicalDevice) : PhysicalDevice :=
  self.device

/-- The helper `easy_device_filter` from the crate root, translated with
its early returns.  `dev.api_version() < min_ver || dev.api_version() >=
max_ver` rejects; a missing feature rejects; a requested extension
outside `supported_by_device` rejects; a device with no queue family
passing `queue_filter` rejects; finally `other_criteria` decides. -/
def easy_device_filter (features : Features) (extensions : DeviceExtensions)
    (queue_filter : QueueFamily → Bool) (other_criteria : PhysicalDevice → Bool)
    (dev : PhysicalDevice) : Bool :=
  let min_ver : Version := ⟨1, 0, 0⟩
  let max_ver : Version := ⟨2, 0, 0⟩
  if dev.api_version.blt min_ver || dev.api_version.bge max_ver then false
  else if !(dev.supported_features.superset_of features) then false
  else if !(DeviceExtensions.isNone
      (extensions.difference (DeviceExtensions.supported_by_device dev))) then false
  else if (dev.queue_families.find? queue_filter).isNone then false
  else other_criteria dev

/-- The body of the enumeration loop of
`EasyInstance::select_physical_device`, as explicit recursion over the
enumerated devices with the loop-carried `favorite_device`.  For each
device: the `ensure!` on `robust_buffer_access` aborts with an error;
otherwise the device is tested with `filter`, and a selected device
replaces the favorite exactly when `preference(device, best_so_far)` is
`Greater` (or there was no favorite yet). -/
def select_loop (filter : PhysicalDevice → Bool)
    (preference : PhysicalDevice → PhysicalDevice → Ordering) :
    Option PhysicalDevice → List PhysicalDevice →
      Except VkError (Option PhysicalDevice)
  | favorite_device, [] => .ok favorite_device
  | favorite_device, device :: rest =>
    if device.supported_features.robust_buffer_access then
      let is_selected := filter device
      let favorite_next :=
        if is_selected then
          match favorite_device with
          | some best_so_far =>
            if preference device best_so_far == Ordering.gt then some device
            else some best_so_far
          | none => some device
        else favorite_device
      select_loop filter preference favorite_next rest
    else .error VkError.robustBufferAccessRequired

/-- Translation of `EasyInstance::select_physical_device`, with the outcome of
`PhysicalDevice::enumerate(&self.instance)` supplied as the list
`devices`.  On success the favorite device, if any, is wrapped in an
`EasyPhysicalDevice`. -/
def select_physical_device (devices : List PhysicalDevice)
    (filter : PhysicalDevice → Bool)
    (preference : PhysicalDevice → PhysicalDevice → Ordering) :
    Except VkError (Option EasyPhysicalDevice) :=
  (select_loop filter preference none devices).map
    (Option.map EasyPhysicalDevice.new)

/-- The selection policy in the words of the specification: the first
candidate encountered is the initial favorite, and a later candidate
replaces the favorite only when the preference orders it strictly
greater than the current favorite (so on ties the earlier candidate is
kept). -/
def favoriteBySpec {α : Type} (preference : α → α → Ordering) :
    List α → Option α
  | [] => none
  | d :: rest =>
    some (rest.foldl
      (fun best c => if preference c best == Ordering.gt then c else best) d)

/-- The dual policy: a later candidate replaces the current favorite
unless the preference orders the current favorite strictly greater (so
on ties the later candidate wins — the policy of Rust's
`Iterator::max_by`). -/
def favoriteBySpecLast {α : Type} (preference : α → α → Ordering) :
    List α → Option α
  | [] => none
  | d :: rest =>
    some (rest.foldl
      (fun best c => if preference best c == Ordering.gt then best else c) d)

/-- Rust's `Iterator::max_by`: a fold of `cmp::max_by`, which keeps the
accumulator only when `compare(acc, next)` is `Greater` and otherwise
takes the later element. -/
def rustMaxBy {α : Type} (compare : α → α → Ordering) (xs : List α) :
    Option α :=
  xs.foldl
    (fun acc y =>
      match acc with
      | none => some y
      | some x => if compare x y == Ordering.gt then some x else some y)
    none

/-- Model of a vulkano logical `Device` handle. -/
structure Device where
  id : Nat
deriving DecidableEq

/-- Model of a vulkano `Queue` handle. -/
structure Queue where
  family_id : Nat
deriving DecidableEq

/-- Environment for `EasyPhysicalDevice::setup_single_queue_device`: the
oracle standing for `Device::new`, which either fails or yields the
device together with the list of queues produced by the queues
iterator. -/
structure DeviceEnv where
  device_new : PhysicalDevice → Features → DeviceExtensions →
    List (QueueFamily × ℚ) → Except VkError (Device × List Queue)

/-- Outcome of `setup_single_queue_device`, with an explicit case for a
panic of the `unwrap` or the `assert!` on the queues iterator. -/
inductive SetupResult where
  | ok : Option (Device × Queue) → SetupResult
  | err : VkError → SetupResult
  | panicked : SetupResult
deriving DecidableEq

/-- The queue-family selection performed by `setup_single_queue_device`:
`self.device.queue_families().filter(filter).max_by(preference)`. -/
def selected_queue_family (self : EasyPhysicalDevice)
    (filter : QueueFamily → Bool)
    (preference : QueueFamily → QueueFamily → Ordering) : Option QueueFamily :=
  rustMaxBy preference (self.device.queue_families.filter filter)

/-- The queue request list `[(queue_family, 1.0)]` passed to
`Device::new`: one queue, priority `1.0`, from the selected family. -/
def single_queue_request (queue_family : QueueFamily) :
    List (QueueFamily × ℚ) :=
  [(queue_family, 1)]

/-- Translation of `EasyPhysicalDevice::setup_single_queue_device`.  When no queue
family passes the filter the method returns `Ok(None)`.  Otherwise
`Device::new` is called on the selected family with a single queue of
priority `1.0`; its error propagates through `?`; on success
`queues_iter.next().unwrap()` panics when the iterator is empty, the
`assert!` panics when a second queue follows, and otherwise the device
and the single queue are returned. -/
def setup_single_queue_device (env : DeviceEnv) (self : EasyPhysicalDevice)
    (features : Features) (extensions : DeviceExtensions)
    (filter : QueueFamily → Bool)
    (preference : QueueFamily → QueueFamily → Ordering) : SetupResult :=
  match selected_queue_family self filter preference with
  | some queue_family =>
    match env.device_new self.device features extensions
        (single_queue_request queue_family) with
    | .error e => SetupResult.err e
    | .ok (device, queues_iter) =>
      match queues_iter with
      | [] => SetupResult.panicked
      | queue :: rest =>
        match rest with
        | [] => SetupResult.ok (some (device, queue))
        | _ :: _ => SetupResult.panicked
  | none => SetupResult.ok none

/-- Model of `log::LevelFilter`, ordered `Off < Error < Warn < Info <
Debug < Trace`. -/
inductive LevelFilter where
  | off : LevelFilter
  | error : LevelFilter
  | warn : LevelFilter
  | info : LevelFilter
  | debug : LevelFilter
  | trace : LevelFilter
deriving DecidableEq

/-- Numeric rank of a level filter, giving its order. -/
def LevelFilter.toNat : LevelFilter → Nat
  | .off => 0
  | .error => 1
  | .warn => 2
  | .info => 3
  | .debug => 4
  | .trace => 5

/-- Boolean `>=` on level filters. -/
def LevelFilter.bge (a b : LevelFilter) : Bool :=
  b.toNat ≤ a.toNat

/-- Model of vulkano's `MessageTypes` flags. -/
structure MessageTypes where
  error : Bool
  warning : Bool
  performance_warning : Bool
  information : Bool
  debug : Bool
deriving DecidableEq

/-- Model of `ApplicationInfo`: opaque data forwarded to `Instance::new`. -/
abbrev ApplicationInfo := String

/-- Model of `RawInstanceExtensions`: a set of extension names. -/
abbrev RawInstanceExtensions := List String

/-- Set insertion on `RawInstanceExtensions`. -/
def RawInstanceExtensions.insert (self : RawInstanceExtensions)
    (name : String) : RawInstanceExtensions :=
  if name ∈ self then self else self ++ [name]

/-- The extension name whose `CString::new` in `with_debug_config` never
fails (the literal contains no interior NUL byte). -/
def debug_report_name : String := "VK_EXT_debug_report"

/-- Model of `InstanceExtensions` (only enumerated for logging). -/
abbrev InstanceExtensions := List Bool

/-- Model of a vulkano `LayerProperties` entry (only logged). -/
abbrev LayerProperties := String

/-- Model of a created vulkano `Instance`: it records the extension set
it was created with. -/
structure Instance where
  extensions : RawInstanceExtensions
deriving DecidableEq

/-- Model of a registered vulkano `DebugCallback`: it records the
instance it is registered on and the message types it listens to. -/
structure DebugCallback where
  inst : Instance
  messages : MessageTypes
deriving DecidableEq

/-- Environment for `EasyInstance` construction: oracles for the
fallible vulkano calls and the logger state. -/
structure InstanceEnv where
  log_info_enabled : Bool
  supported_by_core : Except VkError InstanceExtensions
  layers_list : Except VkError (List LayerProperties)
  create_error : Option VkError
  debug_error : Option VkError
  max_log_level : LevelFilter

/-- The information block at the top of `with_debug_config`: when INFO
logging is enabled, `InstanceExtensions::supported_by_core()?` and
`instance::layers_list()?` both run and their errors propagate. -/
def logInstanceInfo (env : InstanceEnv) : Except VkError Unit :=
  if env.log_info_enabled then
    match env.supported_by_core with
    | .error e => .error e
    | .ok _ =>
      match env.layers_list with
      | .error e => .error e
      | .ok _ => .ok ()
  else .ok ()

/-- Oracle model of `Instance::new`: either the environment's creation
error, or an instance recording the extension set it was created with. -/
def Instance.new (env : InstanceEnv) (_app_infos : Option ApplicationInfo)
    (extensions : RawInstanceExtensions) (_layers : List String) :
    Except VkError Instance :=
  match env.create_error with
  | some e => .error e
  | none => .ok { extensions := extensions }

/-- Oracle model of `DebugCallback::new`: either the environment's
registration error, or a callback recording its instance and message
types.  (The logging closure passed to it is unobservable.) -/
def DebugCallback.new (env : InstanceEnv) (inst : Instance)
    (messages : MessageTypes) : Except VkError DebugCallback :=
  match env.debug_error with
  | some e => .error e
  | none => .ok { inst := inst, messages := messages }

/-- The crate's `EasyInstance`: the instance handle together with the
debug-callback registration, held in one struct. -/
structure EasyInstance where
  inst : Instance
  debug_callback : DebugCallback
deriving DecidableEq

/-- Translation of `EasyInstance::with_debug_config`: log the implementation info
(propagating enumeration errors), insert `VK_EXT_debug_report` into the
caller's extensions, create the instance, register the debug callback,
and return the wrapper holding both. -/
def with_debug_config (env : InstanceEnv)
    (app_infos : Option ApplicationInfo)
    (extensions : RawInstanceExtensions) (layers : List String)
    (messages : MessageTypes) : Except VkError EasyInstance :=
  match logInstanceInfo env with
  | .error e => .error e
  | .ok _ =>
    let raw_extensions := extensions.insert debug_report_name
    match Instance.new env app_infos raw_extensions layers with
    | .error e => .error e
    | .ok inst =>
      match DebugCallback.new env inst messages with
      | .error e => .error e
      | .ok cb => .ok { inst := inst, debug_callback := cb }

/-- The message-type flags `EasyInstance::new` computes from the current
`log::max_level()`. -/
def default_message_types (max_log_level : LevelFilter) : MessageTypes :=
  { error := max_log_level.bge .error
    warning := max_log_level.bge .warn
    performance_warning := max_log_level.bge .warn
    information := max_log_level.bge .info
    debug := max_log_level.bge .debug }

/-- Translation of `EasyInstance::new`: `with_debug_config` with message types derived
from `log::max_level()`. -/
def EasyInstance.new (env : InstanceEnv)
    (app_infos : Option ApplicationInfo)
    (extensions : RawInstanceExtensions) (layers : List String) :
    Except VkError EasyInstance :=
  let max_log_level := env.max_log_level
  with_debug_config env app_infos extensions layers
    { error := max_log_level.bge .error
      warning := max_log_level.bge .warn
      performance_warning := max_log_level.bge .warn
      information := max_log_level.bge .info
      debug := max_log_level.bge .debug }

/-- The error-free part of `select_loop`: the same update of the
loop-carried favorite, with the robustness check stripped.  Used to
state what the loop computes when no `ensure!` fires. -/
def select_fold (filter : PhysicalDevice → Bool)
    (preference : PhysicalDevice → PhysicalDevice → Ordering) :
    Option PhysicalDevice → List PhysicalDevice → Option PhysicalDevice
  | favorite_device, [] => favorite_device
  | favorite_device, device :: rest =>
    select_fold filter preference
      (if filter device then
        match favorite_device with
        | some best_so_far =>
          if preference device best_so_far == Ordering.gt then some device
          else some best_so_far
        | none => some device
      else favorite_device) rest

/-- A sample queue family for concrete evaluations. -/
def qfGraphics : QueueFamily :=
  { id := 0, queues_count := 1, supports_graphics := true
    supports_compute := true, supports_transfers := true
    supports_sparse_binding := false }

/-- A second sample queue family, distinct from `qfGraphics`. -/
def qfCompute : QueueFamily :=
  { id := 1, queues_count := 2, supports_graphics := false
    supports_compute := true, supports_transfers := true
    supports_sparse_binding := false }

/-- A sample device supporting robust buffer access. -/
def devRobust : PhysicalDevice :=
  { index := 0, api_version := ⟨1, 0, 76⟩
    supported_features := ⟨true, []⟩
    supported_extensions := []
    queue_families := [qfGraphics, qfCompute] }

/-- A sample device lacking robust buffer access support. -/
def devNonRobust : PhysicalDevice :=
  { index := 1, api_version := ⟨1, 0, 76⟩
    supported_features := ⟨false, []⟩
    supported_extensions := []
    queue_families := [qfGraphics] }

/-- A second robust sample device, distinct from `devRobust`. -/
def devRobust2 : PhysicalDevice :=
  { index := 2, api_version := ⟨1, 1, 0⟩
    supported_features := ⟨true, []⟩
    supported_extensions := []
    queue_families := [qfCompute] }

/-- A device environment whose `Device::new` oracle always succeeds and
yields one queue per requested `(family, priority)` entry, tagged with
the family's id. -/
def envOneQueuePerEntry : DeviceEnv :=
  { device_new := fun _ _ _ qs => .ok (⟨0⟩, qs.map fun p => ⟨p.1.id⟩) }

/-- An instance environment in which every vulkano call succeeds. -/
def envInstanceOk : InstanceEnv :=
  { log_info_enabled := false
    supported_by_core := .ok []
    layers_list := .ok []
    create_error := none
    debug_error := none
    max_log_level := LevelFilter.info }

/-- An instance environment in which `Instance::new` fails. -/
def envInstanceCreateFail : InstanceEnv :=
  { log_info_enabled := false
    supported_by_core := .ok []
    layers_list := .ok []
    create_error := some (VkError.code 7)
    debug_error := none
    max_log_level := LevelFilter.info }

theorem select_loop_all_robust (filter : PhysicalDevice → Bool)
    (preference : PhysicalDevice → PhysicalDevice → Ordering)
    (devices : List PhysicalDevice)
    (h : ∀ d ∈ devices, d.supported_features.robust_buffer_access = true) :
    ∀ favorite, select_loop filter preference favorite devices
      = .ok (select_fold filter preference favorite devices) := by
  induction devices with
  | nil => intro favorite; rfl
  | cons d rest ih =>
    intro favorite
    have hd : d.supported_features.robust_buffer_access = true :=
      h d (List.mem_cons_self d rest)
    have hrest : ∀ x ∈ rest, x.supported_features.robust_buffer_access = true :=
      fun x hx => h x (List.mem_cons_of_mem d hx)
    simp only [select_loop, select_fold, hd, if_true]
    exact ih hrest _

theorem select_loop_nonrobust (filter : PhysicalDevice → Bool)
    (preference : PhysicalDevice → PhysicalDevice → Ordering)
    (devices : List PhysicalDevice)
    (h : ∃ d ∈ devices, d.supported_features.robust_buffer_access = false) :
    ∀ favorite, select_loop filter preference favorite devices
      = .error VkError.robustBufferAccessRequired := by
  induction devices with
  | nil => simp at h
  | cons d rest ih =>
    intro favorite
    by_cases hd : d.supported_features.robust_buffer_access = true
    · obtain ⟨x, hx, hxr⟩ := h
      rcases List.mem_cons.mp hx with rfl | hx2
      · rw [hd] at hxr; cases hxr
      · simp only [select_loop, hd, if_true]
        exact ih ⟨x, hx2, hxr⟩ _
    · simp only [Bool.not_eq_true] at hd
      simp [select_loop, hd]

theorem select_fold_some (filter : PhysicalDevice → Bool)
    (preference : PhysicalDevice → PhysicalDevice → Ordering)
    (devices : List PhysicalDevice) :
    ∀ b, select_fold filter preference (some b) devices
      = some ((devices.filter filter).foldl
          (fun best c => if preference c best == Ordering.gt then c else best) b) := by
  induction devices with
  | nil => intro b; rfl
  | cons d rest ih =>
    intro b
    by_cases hf : filter d = true
    · by_cases hp : preference d b == Ordering.gt
      · simp [select_fold, List.filter_cons, hf, hp, ih]
      · simp [select_fold, List.filter_cons, hf, hp, ih]
    · simp only [Bool.not_eq_true] at hf
      simp [select_fold, List.filter_cons, hf, ih]

theorem select_fold_none_eq_spec (filter : PhysicalDevice → Bool)
    (preference : PhysicalDevice → PhysicalDevice → Ordering)
    (devices : List PhysicalDevice) :
    select_fold filter preference none devices
      = favoriteBySpec preference (devices.filter filter) := by
  induction devices with
  | nil => rfl
  | cons d rest ih =>
    by_cases hf : filter d = true
    · simp [select_fold, List.filter_cons, hf, favoriteBySpec, select_fold_some]
    · simp only [Bool.not_eq_true] at hf
      simp [select_fold, List.filter_cons, hf, ih]

theorem favoriteBySpec_isSome {α : Type} (preference : α → α → Ordering)
    (xs : List α) (h : xs ≠ []) :
    (favoriteBySpec preference xs).isSome = true := by
  cases xs with
  | nil => exact absurd rfl h
  | cons d rest => simp [favoriteBySpec]

theorem select_fold_some_mem (filter : PhysicalDevice → Bool)
    (preference : PhysicalDevice → PhysicalDevice → Ordering)
    (devices : List PhysicalDevice) :
    ∀ favorite c, select_fold filter preference favorite devices = some c →
      favorite = some c ∨ (c ∈ devices ∧ filter c = true) := by
  induction devices with
  | nil => intro favorite c h; exact Or.inl h
  | cons d rest ih =>
    intro favorite c h
    simp only [select_fold] at h
    rcases ih _ c h with h2 | h2
    · by_cases hf : filter d = true
      · simp only [hf, if_true] at h2
        cases favorite with
        | none =>
          have : d = c := Option.some.inj h2
          exact Or.inr ⟨this ▸ List.mem_cons_self d rest, this ▸ hf⟩
        | some b =>
          by_cases hp : preference d b == Ordering.gt
          · simp only [hp, if_true] at h2
            have : d = c := Option.some.inj h2
            exact Or.inr ⟨this ▸ List.mem_cons_self d rest, this ▸ hf⟩
          · simp only [hp, if_false] at h2
            exact Or.inl h2
      · simp only [Bool.not_eq_true] at hf
        simp only [hf, Bool.false_eq_true, if_false] at h2
        exact Or.inl h2
    · exact Or.inr ⟨List.mem_cons_of_mem d h2.1, h2.2⟩

/-- C1 counterexample: the claim promises `Some` whenever at least one
enumerated device passes the filter, but enumerating a second device
without robust buffer access support makes `select_physical_device`
return an error instead, even though the first device passes the
all-accepting filter. -/
theorem select_physical_device_c1_counterexample :
    (∃ d ∈ [devRobust, devNonRobust],
        (fun (_ : PhysicalDevice) => true) d = true) ∧
    select_physical_device [devRobust, devNonRobust]
        (fun _ => true) (fun _ _ => Ordering.eq)
      = .error VkError.robustBufferAccessRequired := by
  constructor
  · exact ⟨devRobust, List.mem_cons_self _ _, rfl⟩
  · rfl

/-- C1 (amended): provided every enumerated device supports robust
buffer access, whenever at least one device passes the filter,
`select_physical_device` returns `Ok(Some _)` wrapping the device
selected by the claimed policy: the first filter-passing device is the
initial favorite, and a later filter-passing device replaces it only
when the preference orders it strictly greater, so ties keep the
earlier-enumerated device. -/
theorem select_physical_device_favorite (devices : List PhysicalDevice)
    (filter : PhysicalDevice → Bool)
    (preference : PhysicalDevice → PhysicalDevice → Ordering)
    (hrobust : ∀ d ∈ devices, d.supported_features.robust_buffer_access = true)
    (hpass : ∃ d ∈ devices, filter d = true) :
    select_physical_device devices filter preference
      = .ok ((favoriteBySpec preference (devices.filter filter)).map
          EasyPhysicalDevice.new)
    ∧ (favoriteBySpec preference (devices.filter filter)).isSome = true := by
  obtain ⟨d0, hd0, hf0⟩ := hpass
  constructor
  · unfold select_physical_device
    rw [select_loop_all_robust filter preference devices hrobust none,
        select_fold_none_eq_spec]
    rfl
  · apply favoriteBySpec_isSome
    intro hnil
    have hmem : d0 ∈ devices.filter filter := List.mem_filter.mpr ⟨hd0, hf0⟩
    rw [hnil] at hmem
    cases hmem

/-- Witness for the amended C1 at a concrete two-device enumeration. -/
theorem select_physical_device_favorite_witness :
    select_physical_device [devRobust, devRobust2]
        (fun _ => true) (fun _ _ => Ordering.eq)
      = .ok ((favoriteBySpec (fun _ _ => Ordering.eq)
          ([devRobust, devRobust2].filter (fun _ => true))).map
            EasyPhysicalDevice.new)
    ∧ (favoriteBySpec (fun _ _ => Ordering.eq)
        ([devRobust, devRobust2].filter (fun _ => true))).isSome = true :=
  select_physical_device_favorite [devRobust, devRobust2]
    (fun _ => true) (fun _ _ => Ordering.eq)
    (by decide) ⟨devRobust, List.mem_cons_self _ _, rfl⟩

/-- C4: `select_physical_device` answers `Ok(None)` exactly when the
enumeration is error-free (every device supports robust buffer access)
and no enumerated device passes the filter; and whenever it answers
`Ok(Some wrapper)`, the wrapped device passes the filter. -/
theorem select_physical_device_ok_none_iff (devices : List PhysicalDevice)
    (filter : PhysicalDevice → Bool)
    (preference : PhysicalDevice → PhysicalDevice → Ordering) :
    (select_physical_device devices filter preference = .ok none ↔
      (∀ d ∈ devices, d.supported_features.robust_buffer_access = true) ∧
        ∀ d ∈ devices, filter d = false)
    ∧ ∀ epd, select_physical_device devices filter preference = .ok (some epd) →
        filter epd.device = true := by
  have hcases : (∀ d ∈ devices, d.supported_features.robust_buffer_access = true)
      ∨ ∃ d ∈ devices, d.supported_features.robust_buffer_access = false := by
    by_cases h : ∀ d ∈ devices, d.supported_features.robust_buffer_access = true
    · exact Or.inl h
    · push_neg at h
      obtain ⟨d, hd, hdr⟩ := h
      exact Or.inr ⟨d, hd, by simpa using hdr⟩
  constructor
  · constructor
    · intro h
      rcases hcases with hrob | hbad
      · refine ⟨hrob, ?_⟩
        unfold select_physical_device at h
        rw [select_loop_all_robust filter preference devices hrob none] at h
        have hmap : (select_fold filter preference none devices).map
            EasyPhysicalDevice.new = none := by
          simpa [Except.map] using h
        have hsf : select_fold filter preference none devices = none :=
          Option.map_eq_none'.mp hmap
        rw [select_fold_none_eq_spec] at hsf
        intro d hd
        by_contra hfd
        simp only [Bool.not_eq_false] at hfd
        have hmem : d ∈ devices.filter filter := List.mem_filter.mpr ⟨hd, hfd⟩
        cases hfl : devices.filter filter with
        | nil => rw [hfl] at hmem; cases hmem
        | cons a as => rw [hfl] at hsf; simp [favoriteBySpec] at hsf
      · unfold select_physical_device at h
        rw [select_loop_nonrobust filter preference devices hbad none] at h
        cases h
    · rintro ⟨hrob, hnof⟩
      unfold select_physical_device
      rw [select_loop_all_robust filter preference devices hrob none,
          select_fold_none_eq_spec]
      have hfl : devices.filter filter = [] :=
        List.filter_eq_nil_iff.mpr fun a ha => by simp [hnof a ha]
      rw [hfl]
      rfl
  · intro epd h
    rcases hcases with hrob | hbad
    · unfold select_physical_device at h
      rw [select_loop_all_robust filter preference devices hrob none] at h
      have hmap : (select_fold filter preference none devices).map
          EasyPhysicalDevice.new = some epd := by
        simpa [Except.map] using h
      obtain ⟨c, hc, hnew⟩ := Option.map_eq_some'.mp hmap
      rcases select_fold_some_mem filter preference devices none c hc with h2 | h2
      · cases h2
      · have : epd.device = c := by rw [← hnew]; rfl
        rw [this]
        exact h2.2
    · unfold select_physical_device at h
      rw [select_loop_nonrobust filter preference devices hbad none] at h
      cases h

/-- Witness for C4 at a concrete input: a robust device rejected by the
filter yields `Ok(None)`. -/
theorem select_physical_device_ok_none_iff_witness :
    select_physical_device [devRobust] (fun _ => false) (fun _ _ => Ordering.eq)
      = .ok none :=
  (select_physical_device_ok_none_iff [devRobust]
      (fun _ => false) (fun _ _ => Ordering.eq)).1.mpr
    (by decide)

/-- C6: whenever any enumerated device reports no robust buffer access
support, `select_physical_device` returns an error — regardless of the
filter and the preference, hence also when that device would have been
filtered out or would not have been the favorite. -/
theorem select_physical_device_err_nonrobust (devices : List PhysicalDevice)
    (filter : PhysicalDevice → Bool)
    (preference : PhysicalDevice → PhysicalDevice → Ordering)
    (h : ∃ d ∈ devices, d.supported_features.robust_buffer_access = false) :
    select_physical_device devices filter preference
      = .error VkError.robustBufferAccessRequired := by
  unfold select_physical_device
  rw [select_loop_nonrobust filter preference devices h none]
  rfl

/-- Witness for C6: a filter that rejects the non-robust device does not
prevent the error. -/
theorem select_physical_device_err_nonrobust_witness :
    select_physical_device [devRobust, devNonRobust]
        (fun d => d.index == 0) (fun _ _ => Ordering.eq)
      = .error VkError.robustBufferAccessRequired :=
  select_physical_device_err_nonrobust [devRobust, devNonRobust]
    (fun d => d.index == 0) (fun _ _ => Ordering.eq)
    ⟨devNonRobust, List.mem_cons_of_mem _ (List.mem_cons_self _ _), rfl⟩

theorem select_loop_pref_congr (filter : PhysicalDevice → Bool)
    (p1 p2 : PhysicalDevice → PhysicalDevice → Ordering)
    (devices : List PhysicalDevice)
    (hagree : ∀ a b, filter a = true → filter b = true → p1 a b = p2 a b) :
    ∀ favorite, (∀ x, favorite = some x → filter x = true) →
      select_loop filter p1 favorite devices
        = select_loop filter p2 favorite devices := by
  induction devices with
  | nil => intro favorite _; rfl
  | cons d rest ih =>
    intro favorite hfav
    by_cases hd : d.supported_features.robust_buffer_access = true
    · simp only [select_loop, hd, if_true]
      by_cases hf : filter d = true
      · cases favorite with
        | none =>
          simp only [hf, if_true]
          exact ih (some d) fun x hx => (Option.some.inj hx) ▸ hf
        | some b =>
          have hb : filter b = true := hfav b rfl
          simp only [hf, if_true, hagree d b hf hb]
          by_cases hp : p2 d b == Ordering.gt
          · simp only [hp, if_true]
            exact ih (some d) fun x hx => (Option.some.inj hx) ▸ hf
          · simp only [hp, if_false]
            exact ih (some b) fun x hx => (Option.some.inj hx) ▸ hb
      · simp only [Bool.not_eq_true] at hf
        simp only [hf, Bool.false_eq_true, if_false]
        exact ih favorite hfav
    · simp only [Bool.not_eq_true] at hd
      simp [select_loop, hd]

/-- C7: the result of `select_physical_device` does not depend on what
the preference says about filter-rejected devices — two preferences that
agree on every pair of filter-passing devices yield the same result on
the same enumeration. -/
theorem select_physical_device_pref_irrelevance (devices : List PhysicalDevice)
    (filter : PhysicalDevice → Bool)
    (p1 p2 : PhysicalDevice → PhysicalDevice → Ordering)
    (hagree : ∀ a b, filter a = true → filter b = true → p1 a b = p2 a b) :
    select_physical_device devices filter p1
      = select_physical_device devices filter p2 := by
  unfold select_physical_device
  rw [select_loop_pref_congr filter p1 p2 devices hagree none
    (fun x hx => by cases hx)]

/-- Witness for C7: two preferences that disagree only outside the
(empty) filter-passing set give the same result. -/
theorem select_physical_device_pref_irrelevance_witness :
    select_physical_device [devRobust, devRobust2] (fun _ => false)
        (fun _ _ => Ordering.lt)
      = select_physical_device [devRobust, devRobust2] (fun _ => false)
        (fun _ _ => Ordering.gt) :=
  select_physical_device_pref_irrelevance [devRobust, devRobust2]
    (fun _ => false) (fun _ _ => Ordering.lt) (fun _ _ => Ordering.gt)
    (fun _ _ h _ => by cases h)

theorem rustMaxBy_go {α : Type} (compare : α → α → Ordering) (xs : List α) :
    ∀ x, List.foldl
        (fun acc y =>
          match acc with
          | none => some y
          | some a => if compare a y == Ordering.gt then some a else some y)
        (some x) xs
      = some (List.foldl
          (fun best c => if compare best c == Ordering.gt then best else c)
          x xs) := by
  induction xs with
  | nil => intro x; rfl
  | cons y ys ih =>
    intro x
    simp only [List.foldl_cons]
    by_cases h : compare x y == Ordering.gt
    · simp only [h, if_true]
      exact ih x
    · simp only [h, if_false]
      exact ih y

theorem rustMaxBy_eq_favoriteBySpecLast {α : Type}
    (compare : α → α → Ordering) (xs : List α) :
    rustMaxBy compare xs = favoriteBySpecLast compare xs := by
  cases xs with
  | nil => rfl
  | cons d rest =>
    simpa [rustMaxBy, favoriteBySpecLast, List.foldl_cons] using
      rustMaxBy_go compare rest d

theorem foldl_pick_mem {α : Type} (compare : α → α → Ordering) (xs : List α) :
    ∀ x, xs.foldl
        (fun best c => if compare best c == Ordering.gt then best else c) x
      ∈ x :: xs := by
  induction xs with
  | nil => intro x; exact List.mem_cons_self _ _
  | cons y ys ih =>
    intro x
    simp only [List.foldl_cons]
    by_cases h : compare x y == Ordering.gt
    · simp only [h, if_true]
      rcases List.mem_cons.mp (ih x) with h2 | h2
      · exact List.mem_cons.mpr (Or.inl h2)
      · exact List.mem_cons.mpr (Or.inr (List.mem_cons.mpr (Or.inr h2)))
    · simp only [h, if_false]
      exact List.mem_cons.mpr (Or.inr (ih y))

theorem rustMaxBy_mem {α : Type} (compare : α → α → Ordering)
    (xs : List α) (x : α) (h : rustMaxBy compare xs = some x) : x ∈ xs := by
  rw [rustMaxBy_eq_favoriteBySpecLast] at h
  cases xs with
  | nil => cases h
  | cons d rest =>
    simp only [favoriteBySpecLast, Option.some.injEq] at h
    exact h ▸ foldl_pick_mem compare rest d

/-- C2 counterexample: on an all-`Equal` preference over the two queue
families of a device, the queue-family selection keeps the
last-enumerated family (`qfCompute`), while the physical-device policy
the claim invokes — first-seen wins ties — would keep `qfGraphics`; the
returned queue indeed comes from the last family. -/
theorem setup_queue_tie_counterexample :
    selected_queue_family (EasyPhysicalDevice.new devRobust)
        (fun _ => true) (fun _ _ => Ordering.eq) = some qfCompute
    ∧ favoriteBySpec (fun _ _ => Ordering.eq)
        (devRobust.queue_families.filter (fun _ => true)) = some qfGraphics
    ∧ qfGraphics ≠ qfCompute
    ∧ setup_single_queue_device envOneQueuePerEntry
        (EasyPhysicalDevice.new devRobust) ⟨true, []⟩ []
        (fun _ => true) (fun _ _ => Ordering.eq)
      = SetupResult.ok (some (⟨0⟩, ⟨1⟩)) := by
  refine ⟨rfl, rfl, by decide, rfl⟩

/-- C2 (amended): among the queue families that satisfy the caller's
filter, `setup_single_queue_device` selects the family that is greatest
under the caller's preference with ties broken in favor of the
last-enumerated family: a later family replaces the current favorite
unless the preference orders the current favorite strictly greater.
This differs from the physical-device selection, where ties keep the
first-enumerated device. -/
theorem setup_queue_selection_policy (self : EasyPhysicalDevice)
    (filter : QueueFamily → Bool)
    (preference : QueueFamily → QueueFamily → Ordering) :
    selected_queue_family self filter preference
      = favoriteBySpecLast preference
          (self.device.queue_families.filter filter) :=
  rustMaxBy_eq_favoriteBySpecLast preference
    (self.device.queue_families.filter filter)

/-- C5: with no filter-passing queue family the method answers
`Ok(None)`; otherwise the selected family passes the filter, belongs to
the device, and — when `Device::new` on the single-queue request
succeeds with exactly one queue — the method returns `Ok(Some)` with
the device handle and that queue. -/
theorem setup_single_queue_cases (env : DeviceEnv)
    (self : EasyPhysicalDevice) (features : Features)
    (extensions : DeviceExtensions) (filter : QueueFamily → Bool)
    (preference : QueueFamily → QueueFamily → Ordering) :
    ((∀ fam ∈ self.device.queue_families, filter fam = false) →
      setup_single_queue_device env self features extensions filter preference
        = SetupResult.ok none)
    ∧ ∀ fam, selected_queue_family self filter preference = some fam →
        fam ∈ self.device.queue_families ∧ filter fam = true ∧
        ∀ d q, env.device_new self.device features extensions
            (single_queue_request fam) = .ok (d, [q]) →
          setup_single_queue_device env self features extensions filter
              preference
            = SetupResult.ok (some (d, q)) := by
  constructor
  · intro hnone
    have hfl : self.device.queue_families.filter filter = [] :=
      List.filter_eq_nil_iff.mpr fun a ha => by simp [hnone a ha]
    have hsel : selected_queue_family self filter preference = none := by
      simp [selected_queue_family, hfl, rustMaxBy]
    simp [setup_single_queue_device, hsel]
  · intro fam hsel
    have hmem : fam ∈ self.device.queue_families.filter filter :=
      rustMaxBy_mem preference _ fam hsel
    rcases List.mem_filter.mp hmem with ⟨hmemf, hff⟩
    refine ⟨hmemf, hff, ?_⟩
    intro d q hdn
    simp [setup_single_queue_device, hsel, hdn]

/-- Witness for C5: both branches at concrete inputs — an all-rejecting
filter gives `Ok(None)`, and an all-accepting filter gives the device
together with the single queue of the selected family. -/
theorem setup_single_queue_cases_witness :
    setup_single_queue_device envOneQueuePerEntry
        (EasyPhysicalDevice.new devRobust) ⟨true, []⟩ []
        (fun _ => false) (fun _ _ => Ordering.eq) = SetupResult.ok none
    ∧ setup_single_queue_device envOneQueuePerEntry
        (EasyPhysicalDevice.new devRobust) ⟨true, []⟩ []
        (fun _ => true) (fun _ _ => Ordering.eq)
      = SetupResult.ok (some (⟨0⟩, ⟨1⟩)) :=
  ⟨(setup_single_queue_cases envOneQueuePerEntry
      (EasyPhysicalDevice.new devRobust) ⟨true, []⟩ []
      (fun _ => false) (fun _ _ => Ordering.eq)).1 (by decide),
   ((setup_single_queue_cases envOneQueuePerEntry
      (EasyPhysicalDevice.new devRobust) ⟨true, []⟩ []
      (fun _ => true) (fun _ _ => Ordering.eq)).2 qfCompute rfl).2.2
      ⟨0⟩ ⟨1⟩ rfl⟩

/-- C10: the request passed to `Device::new` for the selected family is
a single entry `(family, 1.0)`, and when the device-creation oracle
yields one queue per requested entry, the `unwrap` and the `assert!` on
the queues iterator cannot panic. -/
theorem setup_single_queue_no_panic (env : DeviceEnv)
    (self : EasyPhysicalDevice) (features : Features)
    (extensions : DeviceExtensions) (filter : QueueFamily → Bool)
    (preference : QueueFamily → QueueFamily → Ordering)
    (h : ∀ pd f e qs d out, env.device_new pd f e qs = .ok (d, out) →
      out.length = qs.length) :
    (∀ fam, (single_queue_request fam).map Prod.fst = [fam]
      ∧ (single_queue_request fam).map Prod.snd = [(1 : ℚ)])
    ∧ setup_single_queue_device env self features extensions filter preference
        ≠ SetupResult.panicked := by
  refine ⟨fun fam => ⟨rfl, rfl⟩, ?_⟩
  cases hsel : selected_queue_family self filter preference with
  | none => simp [setup_single_queue_device, hsel]
  | some fam =>
    cases hdn : env.device_new self.device features extensions
        (single_queue_request fam) with
    | error e => simp [setup_single_queue_device, hsel, hdn]
    | ok pr =>
      obtain ⟨d, out⟩ := pr
      have hlen : out.length = (single_queue_request fam).length :=
        h _ _ _ _ _ _ hdn
      cases out with
      | nil => simp [single_queue_request] at hlen
      | cons q rest =>
        cases rest with
        | nil => simp [setup_single_queue_device, hsel, hdn]
        | cons q2 r2 => simp [single_queue_request, List.length_cons] at hlen

/-- Witness for C10: with a well-behaved device-creation oracle the
method does not panic at a concrete input. -/
theorem setup_single_queue_no_panic_witness :
    setup_single_queue_device envOneQueuePerEntry
        (EasyPhysicalDevice.new devRobust) ⟨true, []⟩ []
        (fun _ => true) (fun _ _ => Ordering.eq)
      ≠ SetupResult.panicked :=
  (setup_single_queue_no_panic envOneQueuePerEntry
    (EasyPhysicalDevice.new devRobust) ⟨true, []⟩ []
    (fun _ => true) (fun _ _ => Ordering.eq)
    (by
      intro pd f e qs d out h
      simp only [envOneQueuePerEntry, Except.ok.injEq, Prod.mk.injEq] at h
      rw [← h.2]
      simp)).2

theorem with_debug_config_ok_elim (env : InstanceEnv)
    (app_infos : Option ApplicationInfo) (extensions : RawInstanceExtensions)
    (layers : List String) (messages : MessageTypes) (ei : EasyInstance)
    (h : with_debug_config env app_infos extensions layers messages = .ok ei) :
    env.create_error = none ∧ env.debug_error = none ∧
      ei = { inst := { extensions := extensions.insert debug_report_name }
             debug_callback :=
               { inst := { extensions := extensions.insert debug_report_name }
                 messages := messages } } := by
  simp only [with_debug_config] at h
  cases hl : logInstanceInfo env with
  | error e => rw [hl] at h; cases h
  | ok u =>
    rw [hl] at h
    simp only [Instance.new] at h
    cases hc : env.create_error with
    | some e => rw [hc] at h; cases h
    | none =>
      rw [hc] at h
      simp only [DebugCallback.new] at h
      cases hd : env.debug_error with
      | some e => rw [hd] at h; cases h
      | none =>
        rw [hd] at h
        cases h
        exact ⟨rfl, rfl, rfl⟩

/-- C8: `with_debug_config` succeeds only when instance creation and
debug-callback registration both succeed, in which case the returned
wrapper holds exactly the created instance and the callback registered
on it; the error of whichever vulkano step fails is propagated; and
`new` is `with_debug_config` at the message types derived from the
logger's maximum level. -/
theorem with_debug_config_ok_spec (env : InstanceEnv)
    (app_infos : Option ApplicationInfo) (extensions : RawInstanceExtensions)
    (layers : List String) (messages : MessageTypes) :
    (∀ ei, with_debug_config env app_infos extensions layers messages = .ok ei →
      env.create_error = none ∧ env.debug_error = none ∧
      ei.inst = { extensions := extensions.insert debug_report_name } ∧
      ei.debug_callback = { inst := ei.inst, messages := messages })
    ∧ (∀ e, logInstanceInfo env = .ok () → env.create_error = some e →
        with_debug_config env app_infos extensions layers messages = .error e)
    ∧ (∀ e, logInstanceInfo env = .ok () → env.create_error = none →
        env.debug_error = some e →
        with_debug_config env app_infos extensions layers messages = .error e)
    ∧ EasyInstance.new env app_infos extensions layers
        = with_debug_config env app_infos extensions layers
            (default_message_types env.max_log_level) := by
  refine ⟨?_, ?_, ?_, rfl⟩
  · intro ei h
    obtain ⟨hc, hd, hei⟩ :=
      with_debug_config_ok_elim env app_infos extensions layers messages ei h
    subst hei
    exact ⟨hc, hd, rfl, rfl⟩
  · intro e hl hc
    simp [with_debug_config, Instance.new, hl, hc]
  · intro e hl hc hd
    simp [with_debug_config, Instance.new, DebugCallback.new, hl, hc, hd]

/-- Witness for C8: a failing `Instance::new` propagates its error. -/
theorem with_debug_config_ok_spec_witness :
    with_debug_config envInstanceCreateFail none [] []
        (default_message_types LevelFilter.info)
      = .error (VkError.code 7) :=
  (with_debug_config_ok_spec envInstanceCreateFail none [] []
      (default_message_types LevelFilter.info)).2.1
    (VkError.code 7) rfl rfl

/-- C9: for every caller-supplied extension set, the set handed to
`Instance::new` is that set with `VK_EXT_debug_report` inserted; hence
every successfully created instance has the debug-report extension
enabled, whether or not the caller requested it. -/
theorem with_debug_config_inserts_debug_report (env : InstanceEnv)
    (app_infos : Option ApplicationInfo) (extensions : RawInstanceExtensions)
    (layers : List String) (messages : MessageTypes) :
    debug_report_name ∈ RawInstanceExtensions.insert extensions debug_report_name
    ∧ ∀ ei, with_debug_config env app_infos extensions layers messages = .ok ei →
        ei.inst.extensions = RawInstanceExtensions.insert extensions debug_report_name
        ∧ debug_report_name ∈ ei.inst.extensions := by
  have hmem : debug_report_name
      ∈ RawInstanceExtensions.insert extensions debug_report_name := by
    unfold RawInstanceExtensions.insert
    split_ifs with h
    · exact h
    · exact List.mem_append.mpr (Or.inr (List.mem_cons_self _ _))
  refine ⟨hmem, ?_⟩
  intro ei h
  obtain ⟨_, _, hei⟩ :=
    with_debug_config_ok_elim env app_infos extensions layers messages ei h
  subst hei
  exact ⟨rfl, hmem⟩

/-- Witness for C9: with an empty caller extension set, the created
instance still has the debug-report extension enabled. -/
theorem with_debug_config_inserts_debug_report_witness :
    (⟨⟨["VK_EXT_debug_report"]⟩,
        ⟨⟨["VK_EXT_debug_report"]⟩, default_message_types LevelFilter.info⟩⟩ :
      EasyInstance).inst.extensions
      = RawInstanceExtensions.insert [] debug_report_name
    ∧ debug_report_name
      ∈ (⟨⟨["VK_EXT_debug_report"]⟩,
          ⟨⟨["VK_EXT_debug_report"]⟩, default_message_types LevelFilter.info⟩⟩ :
        EasyInstance).inst.extensions :=
  (with_debug_config_inserts_debug_report envInstanceOk none [] []
      (default_message_types LevelFilter.info)).2 _ rfl

theorem Version.cmp_eq_lt_iff (a b : Version) :
    Version.cmp a b = Ordering.lt ↔ Version.LtP a b := by
  obtain ⟨am, an, ap⟩ := a
  obtain ⟨bm, bn, bp⟩ := b
  unfold Version.cmp Version.LtP
  dsimp only
  split_ifs <;> simp_all <;> omega

theorem Version.not_ltP_iff (a b : Version) :
    ¬ Version.LtP a b ↔ Version.LeP b a := by
  obtain ⟨am, an, ap⟩ := a
  obtain ⟨bm, bn, bp⟩ := b
  unfold Version.LeP Version.LtP
  simp only [Version.mk.injEq]
  omega

theorem ordering_beq_iff (o o2 : Ordering) : (o == o2) = true ↔ o = o2 := by
  cases o <;> cases o2 <;> decide

theorem Version.blt_eq_true_iff (a b : Version) :
    Version.blt a b = true ↔ Version.LtP a b := by
  unfold Version.blt
  rw [ordering_beq_iff]
  exact Version.cmp_eq_lt_iff a b

theorem Version.blt_eq_false_iff (a b : Version) :
    Version.blt a b = false ↔ Version.LeP b a := by
  rw [← Bool.not_eq_true, Version.blt_eq_true_iff]
  exact Version.not_ltP_iff a b

theorem Version.bge_eq_false_iff (a b : Version) :
    Version.bge a b = false ↔ Version.LtP a b := by
  unfold Version.bge
  constructor
  · intro h
    have hb : (Version.cmp a b == Ordering.lt) = true := by
      cases hc : Version.cmp a b == Ordering.lt
      · rw [hc] at h; cases h
      · rfl
    exact (Version.cmp_eq_lt_iff a b).mp ((ordering_beq_iff _ _).mp hb)
  · intro h
    rw [(ordering_beq_iff _ _).mpr ((Version.cmp_eq_lt_iff a b).mpr h)]
    rfl

theorem zip_all_impl_right (a b : List Bool) (h : a.length = b.length) :
    ((a.zip b).all fun p => p.1 || !p.2) = true ↔
      ∀ i, i < b.length → b.getD i false = true → a.getD i false = true := by
  induction a generalizing b with
  | nil =>
    cases b with
    | nil => simp
    | cons y ys => simp at h
  | cons x xs ih =>
    cases b with
    | nil => simp at h
    | cons y ys =>
      have hlen : xs.length = ys.length := by simpa using h
      simp only [List.zip_cons_cons, List.all_cons, Bool.and_eq_true]
      rw [ih ys hlen]
      constructor
      · rintro ⟨h1, h2⟩ i hi hb
        cases i with
        | zero =>
          simp only [List.getD_cons_zero] at hb ⊢
          simp [hb] at h1
          exact h1
        | succ j =>
          simp only [List.getD_cons_succ] at hb ⊢
          exact h2 j (by simpa using hi) hb
      · intro hall
        refine ⟨?_, ?_⟩
        · cases hy : y
          · simp
          · have hx := hall 0 (by simp) (by simp [hy])
            simp only [List.getD_cons_zero] at hx
            simp [hx]
        · intro j hj hb
          have := hall (j + 1) (by simpa using Nat.succ_lt_succ hj)
            (by simpa using hb)
          simpa using this

theorem zip_all_impl_left (a b : List Bool) (h : a.length = b.length) :
    ((a.zip b).all fun p => !p.1 || p.2) = true ↔
      ∀ i, i < a.length → a.getD i false = true → b.getD i false = true := by
  induction a generalizing b with
  | nil => simp
  | cons x xs ih =>
    cases b with
    | nil => simp at h
    | cons y ys =>
      have hlen : xs.length = ys.length := by simpa using h
      simp only [List.zip_cons_cons, List.all_cons, Bool.and_eq_true]
      rw [ih ys hlen]
      constructor
      · rintro ⟨h1, h2⟩ i hi hb
        cases i with
        | zero =>
          simp only [List.getD_cons_zero] at hb ⊢
          simp [hb] at h1
          exact h1
        | succ j =>
          simp only [List.getD_cons_succ] at hb ⊢
          exact h2 j (by simpa using hi) hb
      · intro hall
        refine ⟨?_, ?_⟩
        · cases hx : x
          · simp
          · have hy := hall 0 (by simp) (by simp [hx])
            simp only [List.getD_cons_zero] at hy
            simp [hy]
        · intro j hj hb
          have := hall (j + 1) (by simpa using Nat.succ_lt_succ hj)
            (by simpa using hb)
          simpa using this

theorem superset_of_iff (self other : Features)
    (h : self.other_flags.length = other.other_flags.length) :
    self.superset_of other = true ↔
      ((other.robust_buffer_access = true → self.robust_buffer_access = true) ∧
        ∀ i, i < other.other_flags.length →
          other.other_flags.getD i false = true →
          self.other_flags.getD i false = true) := by
  unfold Features.superset_of
  rw [Bool.and_eq_true, zip_all_impl_right self.other_flags other.other_flags h]
  constructor
  · rintro ⟨h1, h2⟩
    refine ⟨?_, h2⟩
    intro hr
    simp [hr] at h1
    exact h1
  · rintro ⟨h1, h2⟩
    refine ⟨?_, h2⟩
    cases hr : other.robust_buffer_access
    · simp
    · simp [h1 hr]

theorem all_map_general {α β : Type} (f : α → β) (p : β → Bool) (l : List α) :
    (l.map f).all p = l.all fun x => p (f x) := by
  induction l with
  | nil => rfl
  | cons x xs ih => simp [ih]

theorem difference_isNone_iff (a b : DeviceExtensions) (h : a.length = b.length) :
    DeviceExtensions.isNone (a.difference b) = true ↔
      ∀ i, i < a.length → a.getD i false = true → b.getD i false = true := by
  unfold DeviceExtensions.isNone DeviceExtensions.difference
  rw [all_map_general]
  have hfun : (fun x : Bool × Bool => !(x.1 && !x.2))
      = fun p : Bool × Bool => !p.1 || p.2 := by
    funext p
    obtain ⟨p1, p2⟩ := p
    cases p1 <;> cases p2 <;> rfl
  rw [hfun]
  exact zip_all_impl_left a b h

theorem find_isNone_false_iff (l : List QueueFamily) (p : QueueFamily → Bool) :
    (l.find? p).isNone = false ↔ ∃ x ∈ l, p x = true := by
  constructor
  · intro h
    cases hf : l.find? p with
    | none => rw [hf] at h; cases h
    | some x => exact ⟨x, List.mem_of_find?_eq_some hf, List.find?_some hf⟩
  · rintro ⟨x, hx, hp⟩
    cases hf : l.find? p with
    | none => exact absurd hp (by simpa using List.find?_eq_none.mp hf x hx)
    | some y => rfl

/-- C3: the predicate built by `easy_device_filter` accepts a device iff
its API version lies in `[1.0.0, 2.0.0)`, its features include every
requested feature, every requested device extension is supported, at
least one queue family satisfies the queue filter, and the extra
user-supplied criteria accept the device.  The two length hypotheses
record that all `Features` and all `DeviceExtensions` values are records
with the same fixed field count. -/
theorem easy_device_filter_iff (features : Features)
    (extensions : DeviceExtensions) (queue_filter : QueueFamily → Bool)
    (other_criteria : PhysicalDevice → Bool) (dev : PhysicalDevice)
    (hflen : dev.supported_features.other_flags.length
      = features.other_flags.length)
    (hxlen : extensions.length
      = (DeviceExtensions.supported_by_device dev).length) :
    easy_device_filter features extensions queue_filter other_criteria dev
        = true ↔
      (Version.LeP ⟨1, 0, 0⟩ dev.api_version
       ∧ Version.LtP dev.api_version ⟨2, 0, 0⟩
       ∧ (features.robust_buffer_access = true →
            dev.supported_features.robust_buffer_access = true)
       ∧ (∀ i, i < features.other_flags.length →
            features.other_flags.getD i false = true →
            dev.supported_features.other_flags.getD i false = true)
       ∧ (∀ i, i < extensions.length → extensions.getD i false = true →
            (DeviceExtensions.supported_by_device dev).getD i false = true)
       ∧ (∃ fam ∈ dev.queue_families, queue_filter fam = true)
       ∧ other_criteria dev = true) := by
  unfold easy_device_filter
  dsimp only
  split_ifs with h1 h2 h3 h4
  · constructor
    · intro h; cases h
    · rintro ⟨hle, hlt, -⟩
      rcases Bool.or_eq_true_iff.mp h1 with hb | hb
      · exact absurd ((Version.blt_eq_true_iff _ _).mp hb)
          ((Version.not_ltP_iff _ _).mpr hle)
      · rw [(Version.bge_eq_false_iff _ _).mpr hlt] at hb
        cases hb
  · constructor
    · intro h; cases h
    · rintro ⟨-, -, himpl, hflags, -⟩
      have hsup : dev.supported_features.superset_of features = true :=
        (superset_of_iff _ _ hflen).mpr ⟨himpl, hflags⟩
      rw [hsup] at h2
      cases h2
  · constructor
    · intro h; cases h
    · rintro ⟨-, -, -, -, hexts, -⟩
      have hnone : DeviceExtensions.isNone
          (extensions.difference (DeviceExtensions.supported_by_device dev))
            = true :=
        (difference_isNone_iff _ _ hxlen).mpr hexts
      rw [hnone] at h3
      cases h3
  · constructor
    · intro h; cases h
    · rintro ⟨-, -, -, -, -, hex, -⟩
      obtain ⟨fam, hmem, hfam⟩ := hex
      have hnone := Option.isNone_iff_eq_none.mp h4
      exact absurd hfam (by simpa using List.find?_eq_none.mp hnone fam hmem)
  · have hv : (dev.api_version.blt ⟨1, 0, 0⟩
        || dev.api_version.bge ⟨2, 0, 0⟩) = false := by
      simpa using h1
    have hv1 : dev.api_version.blt ⟨1, 0, 0⟩ = false := by
      cases hb : dev.api_version.blt ⟨1, 0, 0⟩
      · rfl
      · rw [hb] at hv; simp at hv
    have hv2 : dev.api_version.bge ⟨2, 0, 0⟩ = false := by
      cases hb : dev.api_version.bge ⟨2, 0, 0⟩
      · rfl
      · rw [hb] at hv; simp at hv
    have hle : Version.LeP ⟨1, 0, 0⟩ dev.api_version :=
      (Version.blt_eq_false_iff _ _).mp hv1
    have hlt : Version.LtP dev.api_version ⟨2, 0, 0⟩ :=
      (Version.bge_eq_false_iff _ _).mp hv2
    have hsup : dev.supported_features.superset_of features = true := by
      cases hb : dev.supported_features.superset_of features
      · rw [hb] at h2; simp at h2
      · rfl
    obtain ⟨himpl, hflags⟩ := (superset_of_iff _ _ hflen).mp hsup
    have hnone : DeviceExtensions.isNone
        (extensions.difference (DeviceExtensions.supported_by_device dev))
          = true := by
      cases hb : DeviceExtensions.isNone
          (extensions.difference (DeviceExtensions.supported_by_device dev))
      · rw [hb] at h3; simp at h3
      · rfl
    have hexts := (difference_isNone_iff _ _ hxlen).mp hnone
    have hfind : (dev.queue_families.find? queue_filter).isNone = false := by
      cases hb : (dev.queue_families.find? queue_filter).isNone
      · rfl
      · exact absurd hb h4
    have hex := (find_isNone_false_iff _ _).mp hfind
    constructor
    · intro hoth
      exact ⟨hle, hlt, himpl, hflags, hexts, hex, hoth⟩
    · rintro ⟨-, -, -, -, -, -, hoth⟩
      exact hoth

/-- Witness for C3: the baseline filter accepts a concrete device whose
version, features, extensions and queue families meet all criteria. -/
theorem easy_device_filter_iff_witness :
    easy_device_filter ⟨true, []⟩ [] (fun fam => fam.supports_graphics)
        (fun _ => true) devRobust = true :=
  (easy_device_filter_iff ⟨true, []⟩ [] (fun fam => fam.supports_graphics)
      (fun _ => true) devRobust rfl rfl).mpr
    (by
      refine ⟨?_, ?_, ?_, ?_, ?_, ?_, rfl⟩
      · decide
      · decide
      · intro h; rfl
      · intro i hi; exact absurd hi (Nat.not_lt_zero i)
      · intro i hi; exact absurd hi (Nat.not_lt_zero i)
      · exact ⟨qfGraphics, List.mem_cons_self _ _, rfl⟩)

end Vulkanoob
